import Mathlib

/-!
Shallow embedding of the bartrix-backend escrow lifecycle core:
`src/shared/schema.ts`, `src/Server/storage.ts` (class `MemStorage`) and the
route handlers of `src/Server/routes.ts` (`registerRoutes`).

Modelling conventions:
* `Date` values are naturals (milliseconds since epoch); each HTTP request is
  modelled with a single timestamp `now` supplied to the handler.
* `randomUUID()` is modelled as a fresh-id supply: `MemStorage` carries a
  `nextId` counter shared by projects and activities, so ids are naturals.
* A JS `Map` is an association list with unique keys; `mapSet` replaces the
  value at an existing key in place (preserving position, as `Map.set` does)
  and otherwise appends.
* Nullable database columns (per `schema.ts`: `sellerEmail`, `deadline`, the
  file metadata columns, `paymentStatus`, `buyerApproved`, `sellerApproved`,
  `currency`) are `Option` fields.  `createdAt`/`updatedAt` and an Activity's
  `createdAt` are plain naturals because `MemStorage` assigns them on every
  path that creates or updates a record.
* In zod schemas derived with `createInsertSchema`, a column with a default is
  optional; in `MemStorage.createProject` both an absent and a `null` value
  fall to the default through `??`, so the two are collapsed into `none`.
  In `updateProjectSchema` (= `insertProjectSchema.partial()`) every field may
  be absent (outer `Option` layer): an absent field leaves the stored value
  untouched by the object spread in `MemStorage.updateProject`.
* `fs.existsSync` is an oracle `onDisk : String → Bool` passed to the file
  route; multer's file writing is external I/O and not part of the store.
-/

namespace Bartrix

/-- Lookup in the association-list model of a JS `Map` (first matching key). -/
def mapGet {α : Type} : List (Nat × α) → Nat → Option α
  | [], _ => none
  | e :: t, k => if e.1 = k then some e.2 else mapGet t k

/-- JS `Map.set`: replace the value at an existing key keeping its position,
otherwise append the new entry at the end. -/
def mapSet {α : Type} : List (Nat × α) → Nat → α → List (Nat × α)
  | [], k, v => [(k, v)]
  | e :: t, k, v => if e.1 = k then (k, v) :: t else e :: mapSet t k v

/-- Project row, mirroring `projects` in `src/shared/schema.ts`
(`$inferSelect`). -/
structure Project where
  id : Nat
  title : String
  description : String
  amount : String
  status : String
  buyerEmail : String
  sellerEmail : Option String
  createdBy : String
  deadline : Option Nat
  fileName : Option String
  fileSize : Option String
  fileType : Option String
  filePath : Option String
  uploadedAt : Option Nat
  paymentStatus : Option String
  buyerApproved : Option String
  sellerApproved : Option String
  currency : Option String
  createdAt : Nat
  updatedAt : Nat
deriving Repr, DecidableEq

/-- Activity row, mirroring `activities` in `src/shared/schema.ts`. -/
structure Activity where
  id : Nat
  projectId : Nat
  description : String
  type : String
  createdAt : Nat
deriving Repr, DecidableEq

/-- Validated input of `insertProjectSchema`: required text columns plus the
optional defaulted ones (absent or `null` both default inside
`createProject`, so they are one `none`). -/
structure InsertProject where
  title : String
  description : String
  amount : String
  buyerEmail : String
  createdBy : String
  status : Option String := none
  paymentStatus : Option String := none
  buyerApproved : Option String := none
  sellerApproved : Option String := none
  currency : Option String := none
  sellerEmail : Option String := none
  deadline : Option Nat := none
deriving Repr, DecidableEq

/-- Validated input of `updateProjectSchema` (= `insertProjectSchema.partial()`):
every field optional; for nullable columns the present value may itself be
`null`, hence the nested `Option`. -/
structure UpdateProject where
  title : Option String := none
  description : Option String := none
  amount : Option String := none
  buyerEmail : Option String := none
  createdBy : Option String := none
  status : Option String := none
  paymentStatus : Option (Option String) := none
  buyerApproved : Option (Option String) := none
  sellerApproved : Option (Option String) := none
  currency : Option (Option String) := none
  sellerEmail : Option (Option String) := none
  deadline : Option (Option Nat) := none
deriving Repr, DecidableEq

/-- Validated input of `insertActivitySchema`. -/
structure InsertActivity where
  projectId : Nat
  description : String
  type : String
deriving Repr, DecidableEq

/-- The in-memory store of `MemStorage` (`src/Server/storage.ts`), with the
fresh-id counter standing in for `randomUUID()`. -/
structure MemStorage where
  projects : List (Nat × Project)
  activities : List (Nat × Activity)
  nextId : Nat
deriving Repr, DecidableEq

/-- `MemStorage.getProject`. -/
def MemStorage.getProject (s : MemStorage) (id : Nat) : Option Project :=
  mapGet s.projects id

/-- `MemStorage.createProject`: fresh id, `createdAt = updatedAt = now`, file
metadata cleared, defaults applied with `??` exactly as in the source. -/
def MemStorage.createProject (s : MemStorage) (ip : InsertProject) (now : Nat) :
    Project × MemStorage :=
  let id := s.nextId
  let project : Project := {
    id := id
    title := ip.title
    description := ip.description
    amount := ip.amount
    buyerEmail := ip.buyerEmail
    createdBy := ip.createdBy
    createdAt := now
    updatedAt := now
    fileName := none
    fileSize := none
    fileType := none
    filePath := none
    uploadedAt := none
    status := ip.status.getD "created"
    paymentStatus := some (ip.paymentStatus.getD "pending")
    buyerApproved := some (ip.buyerApproved.getD "false")
    sellerApproved := some (ip.sellerApproved.getD "false")
    currency := some (ip.currency.getD "USD")
    sellerEmail := ip.sellerEmail
    deadline := ip.deadline }
  (project, { s with projects := mapSet s.projects id project, nextId := s.nextId + 1 })

/-- `MemStorage.updateProject`: shallow merge of the patch over the record
(`{ ...project, ...updates, updatedAt: new Date() }`), `none` if id unknown. -/
def MemStorage.updateProject (s : MemStorage) (id : Nat) (u : UpdateProject) (now : Nat) :
    Option Project × MemStorage :=
  match mapGet s.projects id with
  | none => (none, s)
  | some project =>
    let updated : Project := { project with
      title := u.title.getD project.title
      description := u.description.getD project.description
      amount := u.amount.getD project.amount
      buyerEmail := u.buyerEmail.getD project.buyerEmail
      createdBy := u.createdBy.getD project.createdBy
      status := u.status.getD project.status
      paymentStatus := u.paymentStatus.getD project.paymentStatus
      buyerApproved := u.buyerApproved.getD project.buyerApproved
      sellerApproved := u.sellerApproved.getD project.sellerApproved
      currency := u.currency.getD project.currency
      sellerEmail := u.sellerEmail.getD project.sellerEmail
      deadline := u.deadline.getD project.deadline
      updatedAt := now }
    (some updated, { s with projects := mapSet s.projects id updated })

/-- `MemStorage.createActivity`: fresh id, `createdAt = now`. -/
def MemStorage.createActivity (s : MemStorage) (ia : InsertActivity) (now : Nat) :
    Activity × MemStorage :=
  let a : Activity := {
    id := s.nextId
    projectId := ia.projectId
    description := ia.description
    type := ia.type
    createdAt := now }
  (a, { s with activities := mapSet s.activities s.nextId a, nextId := s.nextId + 1 })

/-- Values of the activities map, in insertion order (`Array.from(map.values())`). -/
def activityValues (s : MemStorage) : List Activity :=
  s.activities.map (fun e => e.2)

/-- The JS sort comparator `(a, b) => b.createdAt - a.createdAt` as the
"may precede" relation: `a` may come before `b` iff `b.createdAt ≤ a.createdAt`. -/
def actDescBefore (a b : Activity) : Bool :=
  decide (b.createdAt ≤ a.createdAt)

/-- `MemStorage.getActivitiesByProject`: the project's activities sorted by
`createdAt` descending. -/
def MemStorage.getActivitiesByProject (s : MemStorage) (projectId : Nat) : List Activity :=
  ((activityValues s).filter (fun a => a.projectId == projectId)).mergeSort actDescBefore

/-- `MemStorage.getRecentActivities`: all activities sorted by `createdAt`
descending, truncated to `limit` (default 10). -/
def MemStorage.getRecentActivities (s : MemStorage) (limit : Nat := 10) : List Activity :=
  ((activityValues s).mergeSort actDescBefore).take limit

/-- Outcome of a route handler, abstracting the HTTP responses: `ok` for
`res.json`, `badRequest` for the handler's own 400, `notFound` for 404,
`forbidden` for 403, `validationError` for a multer filter/limit rejection. -/
inductive ApiResult (α : Type) where
  | ok (val : α)
  | badRequest
  | notFound
  | forbidden
  | validationError
deriving Repr, DecidableEq

/-- Uploaded file as multer presents it (`req.file`). -/
structure UploadedFile where
  originalname : String
  size : Nat
  mimetype : String
  path : String
deriving Repr, DecidableEq

/-- Lowercasing as `String.prototype.toLowerCase` on ASCII names
(character-wise `Char.toLower`). -/
def lowerStr (s : String) : String :=
  String.mk (s.data.map Char.toLower)

/-- Index of the last dot in a character list, if any. -/
def lastDotIdx (cs : List Char) : Option Nat :=
  ((cs.enum.filter (fun e => e.2 == '.')).getLast?).map (fun e => e.1)

/-- Node's `path.extname` on a bare file name: the suffix from the last dot,
empty when there is no dot or the only dot leads the name. -/
def extname (name : String) : String :=
  match lastDotIdx name.data with
  | none => ""
  | some 0 => ""
  | some i => String.mk (name.data.drop i)

/-- The multer `fileFilter` allow-list. -/
def allowedTypes : List String := [".stl", ".step", ".obj", ".ply"]

/-- Whether the multer `fileFilter` accepts the file
(`allowedTypes.includes(path.extname(file.originalname).toLowerCase())`). -/
def fileFilterAccepts (f : UploadedFile) : Bool :=
  allowedTypes.contains (lowerStr (extname f.originalname))

/-- The multer `limits.fileSize` value: 50 MiB. -/
def sizeLimit : Nat := 50 * 1024 * 1024

/-- Handler of `POST /api/projects` (create + initial activity). -/
def createProjectRoute (s : MemStorage) (ip : InsertProject) (now : Nat) :
    ApiResult Project × MemStorage :=
  let r := s.createProject ip now
  let r2 := r.2.createActivity {
    projectId := r.1.id
    description := "Project \"" ++ r.1.title ++ "\" created"
    type := "created" } now
  (.ok r.1, r2.2)

/-- Handler of `PATCH /api/projects/:id`. -/
def updateProjectRoute (s : MemStorage) (id : Nat) (u : UpdateProject) (now : Nat) :
    ApiResult Project × MemStorage :=
  let r := s.updateProject id u now
  match r.1 with
  | none => (.notFound, r.2)
  | some p => (.ok p, r.2)

/-- Handler of `POST /api/projects/:id/upload`.  The multer middleware rejects
a disallowed extension or an oversize file before the handler body runs; a
request without a file reaches the handler and gets 400.  The handler sets
`status` through `updateProject`, then mutates the stored record's file
metadata in place (the fetched object aliases the map entry), then appends
the activity and responds with the possibly-undefined fetched project. -/
def uploadFile (s : MemStorage) (id : Nat) (file : Option UploadedFile) (now : Nat) :
    ApiResult (Option Project) × MemStorage :=
  match file with
  | none => (.badRequest, s)
  | some f =>
    if ¬ fileFilterAccepts f then (.validationError, s)
    else if sizeLimit < f.size then (.validationError, s)
    else
      match mapGet s.projects id with
      | none => (.notFound, s)
      | some _ =>
        let r1 := s.updateProject id { status := some "file_uploaded" } now
        let s1 := r1.2
        let pwFile := (mapGet s1.projects id).map (fun p => { p with
          fileName := some f.originalname
          fileSize := some (toString f.size)
          fileType := some f.mimetype
          filePath := some f.path
          uploadedAt := some now })
        let s2 := match pwFile with
          | none => s1
          | some p => { s1 with projects := mapSet s1.projects id p }
        let r3 := s2.createActivity {
          projectId := id
          description := "File \"" ++ f.originalname ++ "\" uploaded"
          type := "upload" } now
        (.ok pwFile, r3.2)

/-- Outcome of `GET /api/projects/:id/file`. -/
inductive FileResult where
  | notFound
  | forbidden
  | download (path : String) (name : String)
  | preview (fileName : Option String) (fileSize : Option String)
      (fileType : Option String) (uploadedAt : Option Nat) (downloadAllowed : Bool)
deriving Repr, DecidableEq

/-- Handler of `GET /api/projects/:id/file`; `download` is the query value and
`onDisk` stands for `fs.existsSync`. -/
def getFile (s : MemStorage) (id : Nat) (download : Option String)
    (onDisk : String → Bool) : FileResult :=
  match mapGet s.projects id with
  | none => .notFound
  | some project =>
    match project.filePath with
    | none => .notFound
    | some fp =>
      if download = some "true" ∧
          (project.buyerApproved ≠ some "true" ∨ project.sellerApproved ≠ some "true") then
        .forbidden
      else if ¬ onDisk fp then .notFound
      else if download = some "true" then .download fp (project.fileName.getD "model")
      else .preview project.fileName project.fileSize project.fileType project.uploadedAt
        (decide (project.buyerApproved = some "true" ∧ project.sellerApproved = some "true"))

/-- Handler of `POST /api/projects/:id/deposit`. -/
def depositPayment (s : MemStorage) (id : Nat) (now : Nat) :
    ApiResult (Option Project) × MemStorage :=
  match mapGet s.projects id with
  | none => (.notFound, s)
  | some project =>
    let r := s.updateProject id {
      paymentStatus := some (some "held")
      status := some "payment_deposited" } now
    let r2 := r.2.createActivity {
      projectId := id
      description := "Escrow payment of $" ++ project.amount ++ " deposited"
      type := "payment" } now
    (.ok r.1, r2.2)

/-- Handler of `POST /api/projects/:id/buyer-action`; `action` is
`req.body.action`, possibly missing. -/
def buyerAction (s : MemStorage) (id : Nat) (action : Option String) (now : Nat) :
    ApiResult (Option Project) × MemStorage :=
  match mapGet s.projects id with
  | none => (.notFound, s)
  | some _ =>
    let r := s.updateProject id {
      buyerApproved := some (some (if action = some "approve" then "true" else "revision_requested"))
      status := some (if action = some "approve" then "under_review" else "revision_requested") } now
    let description := if action = some "approve"
      then "Buyer approved the project"
      else "Buyer requested revisions"
    let r2 := r.2.createActivity {
      projectId := id
      description := description
      type := "review" } now
    (.ok r.1, r2.2)

/-- Handler of `POST /api/projects/:id/seller-approve`. -/
def sellerApprove (s : MemStorage) (id : Nat) (now : Nat) :
    ApiResult (Option Project) × MemStorage :=
  match mapGet s.projects id with
  | none => (.notFound, s)
  | some project =>
    let shouldComplete : Bool := decide (project.buyerApproved = some "true")
    let r := s.updateProject id {
      sellerApproved := some (some "true")
      status := some (if shouldComplete then "completed" else "under_review")
      paymentStatus := some (if shouldComplete then some "released" else project.paymentStatus) } now
    let description := if shouldComplete
      then "Project completed - payment released to seller"
      else "Seller approved the project completion"
    let r2 := r.2.createActivity {
      projectId := id
      description := description
      type := if shouldComplete then "completion" else "approval" } now
    (.ok r.1, r2.2)

/-- Handler of `GET /api/activities/recent`: `parseInt(limit) || 10`, so a
missing, unparsable or zero limit falls back to 10. -/
def recentActivitiesRoute (s : MemStorage) (limitParam : Option Nat) : List Activity :=
  s.getRecentActivities (match limitParam with
    | some n => if n = 0 then 10 else n
    | none => 10)

/-- Access gate of §4.4 of the spec, as it appears in the route's
`downloadAllowed` field and (negated) in its 403 guard. -/
def canDownload (p : Project) : Bool :=
  decide (p.buyerApproved = some "true" ∧ p.sellerApproved = some "true")

/-- Keys of an association list are all below the counter. -/
def keysBelow {α : Type} (m : List (Nat × α)) (n : Nat) : Prop :=
  ∀ e ∈ m, e.1 < n

/-- Well-formedness of the store: every existing id is below the fresh-id
counter (always true of states reachable from the empty store). -/
def WFStore (s : MemStorage) : Prop :=
  keysBelow s.projects s.nextId ∧ keysBelow s.activities s.nextId

instance {α : Type} (m : List (Nat × α)) (n : Nat) : Decidable (keysBelow m n) := by
  unfold keysBelow; infer_instance

instance (s : MemStorage) : Decidable (WFStore s) := by
  unfold WFStore; infer_instance

/-- Setting a key makes it readable. -/
theorem mapGet_mapSet_self {α : Type} (m : List (Nat × α)) (k : Nat) (v : α) :
    mapGet (mapSet m k v) k = some v := by
  induction m with
  | nil => simp [mapSet, mapGet]
  | cons e t ih =>
    by_cases h : e.1 = k
    · simp [mapSet, h, mapGet]
    · simp [mapSet, h, mapGet, ih]

/-- Setting one key leaves every other key unchanged. -/
theorem mapGet_mapSet_ne {α : Type} (m : List (Nat × α)) (k k' : Nat) (v : α)
    (h : k' ≠ k) : mapGet (mapSet m k v) k' = mapGet m k' := by
  induction m with
  | nil => simp [mapSet, mapGet, Ne.symm h]
  | cons e t ih =>
    by_cases he : e.1 = k
    · simp [mapSet, mapGet, he, Ne.symm h]
    · simp [mapSet, mapGet, he, ih]

/-- Setting an absent key appends the entry at the end. -/
theorem mapSet_eq_append {α : Type} (m : List (Nat × α)) (k : Nat) (v : α)
    (h : mapGet m k = none) : mapSet m k v = m ++ [(k, v)] := by
  induction m with
  | nil => simp [mapSet]
  | cons e t ih =>
    by_cases he : e.1 = k
    · simp [mapGet, he] at h
    · simp [mapGet, he] at h
      simp [mapSet, he, ih h]

/-- A key at or above the bound of `keysBelow` is absent. -/
theorem mapGet_eq_none_of_keysBelow {α : Type} (m : List (Nat × α)) (n : Nat)
    (h : keysBelow m n) : mapGet m n = none := by
  induction m with
  | nil => rfl
  | cons e t ih =>
    have h1 := h e (by simp)
    have ht : keysBelow t n := fun x hx => h x (by simp [hx])
    simp [mapGet, Nat.ne_of_lt h1, ih ht]

/-- Concrete project fixture used by the witnesses: a project under review,
payment held, file uploaded, buyer approved, seller not yet. -/
def baseProj : Project := {
  id := 0
  title := "Bracket"
  description := "3d printed bracket"
  amount := "100.00"
  status := "under_review"
  buyerEmail := "b@x.com"
  sellerEmail := some "s@x.com"
  createdBy := "buyer"
  deadline := none
  fileName := some "part.stl"
  fileSize := some "2048"
  fileType := some "model/stl"
  filePath := some "/up/part.stl"
  uploadedAt := some 3
  paymentStatus := some "held"
  buyerApproved := some "true"
  sellerApproved := some "false"
  currency := some "USD"
  createdAt := 1
  updatedAt := 3 }

/-- Singleton store holding one project under id 0. -/
def storeWith (p : Project) : MemStorage :=
  { projects := [(0, p)], activities := [], nextId := 1 }

/-- The empty store (the state `MemStorage`'s constructor builds). -/
def emptyStore : MemStorage :=
  { projects := [], activities := [], nextId := 0 }

/-- C2: on an existing project, sellerApprove sets `sellerApproved` to
`"true"`; if `buyerApproved = "true"` it sets `status` to `"completed"` and
`paymentStatus` to `"released"` and appends a `"completion"` activity;
otherwise it sets `status` to `"under_review"`, leaves `paymentStatus`
unchanged, and appends an `"approval"` activity. -/
theorem C2_sellerApprove (s : MemStorage) (id : Nat) (p : Project) (now : Nat)
    (hp : mapGet s.projects id = some p) (hwf : WFStore s) :
    ((sellerApprove s id now).2.getProject id).map Project.sellerApproved
      = some (some "true") ∧
    ((sellerApprove s id now).2.getProject id).map Project.status
      = some (if p.buyerApproved = some "true" then "completed" else "under_review") ∧
    ((sellerApprove s id now).2.getProject id).map Project.paymentStatus
      = some (if p.buyerApproved = some "true" then some "released" else p.paymentStatus) ∧
    (sellerApprove s id now).2.activities = s.activities ++ [(s.nextId,
      { id := s.nextId
        projectId := id
        description := if p.buyerApproved = some "true"
          then "Project completed - payment released to seller"
          else "Seller approved the project completion"
        type := if p.buyerApproved = some "true" then "completion" else "approval"
        createdAt := now })] := by
  have hnone := mapGet_eq_none_of_keysBelow s.activities s.nextId hwf.2
  by_cases hb : p.buyerApproved = some "true" <;>
    simp [sellerApprove, MemStorage.getProject, MemStorage.updateProject,
      MemStorage.createActivity, hp, hb, mapGet_mapSet_self,
      mapSet_eq_append s.activities s.nextId _ hnone]

/-- Witness for C2 at the concrete fixture: seller approval on a project the
buyer already approved completes it and releases payment. -/
theorem C2_sellerApprove_witness :
    mapGet (storeWith baseProj).projects 0 = some baseProj ∧
    WFStore (storeWith baseProj) ∧
    ((sellerApprove (storeWith baseProj) 0 7).2.getProject 0).map Project.paymentStatus
      = some (if baseProj.buyerApproved = some "true" then some "released"
          else baseProj.paymentStatus) :=
  ⟨by decide, by decide,
    (C2_sellerApprove (storeWith baseProj) 0 baseProj 7 (by decide) (by decide)).2.2.1⟩

/-- C4: on an existing project whose seller already approved, a buyer
approval sets `buyerApproved` to `"true"` and `status` to `"under_review"`
(never `"completed"`), and leaves `paymentStatus` unchanged. -/
theorem C4_buyerApprove (s : MemStorage) (id : Nat) (p : Project) (now : Nat)
    (hp : mapGet s.projects id = some p) (_hs : p.sellerApproved = some "true") :
    ((buyerAction s id (some "approve") now).2.getProject id).map Project.buyerApproved
      = some (some "true") ∧
    ((buyerAction s id (some "approve") now).2.getProject id).map Project.status
      = some "under_review" ∧
    ((buyerAction s id (some "approve") now).2.getProject id).map Project.status
      ≠ some "completed" ∧
    ((buyerAction s id (some "approve") now).2.getProject id).map Project.paymentStatus
      = some p.paymentStatus := by
  simp [buyerAction, MemStorage.getProject, MemStorage.updateProject,
    MemStorage.createActivity, hp, mapGet_mapSet_self]

/-- Project fixture where the seller approved first and the buyer has not. -/
def sellerFirstProj : Project :=
  { baseProj with sellerApproved := some "true", buyerApproved := some "false" }

/-- Witness for C4: buyer approval after the seller approved leaves the
payment held and the project under review, not completed. -/
theorem C4_buyerApprove_witness :
    mapGet (storeWith sellerFirstProj).projects 0 = some sellerFirstProj ∧
    ((buyerAction (storeWith sellerFirstProj) 0 (some "approve") 7).2.getProject 0).map
        Project.status = some "under_review" :=
  ⟨by decide,
    (C4_buyerApprove (storeWith sellerFirstProj) 0 sellerFirstProj 7
      (by decide) (by decide)).2.1⟩

/-- Project fixture in the completed state: payment already released. -/
def releasedProj : Project :=
  { baseProj with
    status := "completed"
    paymentStatus := some "released"
    buyerApproved := some "true"
    sellerApproved := some "true" }

/-- C1 counterexample: depositing on a project whose payment was already
released moves `paymentStatus` from `"released"` back to `"held"`, refuting
the forward-only claim for the exposed operation `depositPayment`. -/
theorem C1_counterexample :
    ((storeWith releasedProj).getProject 0).map Project.paymentStatus
      = some (some "released") ∧
    ((depositPayment (storeWith releasedProj) 0 9).2.getProject 0).map Project.paymentStatus
      = some (some "held") := by
  constructor <;> decide

/-- C1 amended: `buyerAction` and `uploadFile` leave `paymentStatus`
untouched and `sellerApprove` either leaves it or sets `"released"` — so
none of them ever moves it backward — but `depositPayment` unconditionally
sets `"held"` (so `released → held` is reachable) and `updateProject`
replaces it with whatever value the patch supplies. -/
theorem C1_amended (s : MemStorage) (id : Nat) (p : Project) (now : Nat)
    (hp : mapGet s.projects id = some p) :
    (∀ a, ((buyerAction s id a now).2.getProject id).map Project.paymentStatus
        = some p.paymentStatus) ∧
    (((sellerApprove s id now).2.getProject id).map Project.paymentStatus
        = some (if p.buyerApproved = some "true" then some "released" else p.paymentStatus)) ∧
    (∀ f, ((uploadFile s id (some f) now).2.getProject id).map Project.paymentStatus
        = some p.paymentStatus) ∧
    (((depositPayment s id now).2.getProject id).map Project.paymentStatus
        = some (some "held")) ∧
    (∀ u : UpdateProject, ((s.updateProject id u now).2.getProject id).map Project.paymentStatus
        = some (u.paymentStatus.getD p.paymentStatus)) := by
  refine ⟨?_, ?_, ?_, ?_, ?_⟩
  · intro a
    simp [buyerAction, MemStorage.getProject, MemStorage.updateProject,
      MemStorage.createActivity, hp, mapGet_mapSet_self]
  · by_cases hb : p.buyerApproved = some "true" <;>
      simp [sellerApprove, MemStorage.getProject, MemStorage.updateProject,
        MemStorage.createActivity, hp, hb, mapGet_mapSet_self]
  · intro f
    by_cases h1 : fileFilterAccepts f
    · by_cases h2 : sizeLimit < f.size
      · simp [uploadFile, h1, h2, MemStorage.getProject, hp]
      · simp [uploadFile, h1, h2, MemStorage.getProject, MemStorage.updateProject,
          MemStorage.createActivity, hp, mapGet_mapSet_self]
    · simp [uploadFile, h1, MemStorage.getProject, hp]
  · simp [depositPayment, MemStorage.getProject, MemStorage.updateProject,
      MemStorage.createActivity, hp, mapGet_mapSet_self]
  · intro u
    simp [MemStorage.getProject, MemStorage.updateProject, hp, mapGet_mapSet_self]

/-- Witness for C1 amended at the concrete fixture. -/
theorem C1_amended_witness :
    mapGet (storeWith baseProj).projects 0 = some baseProj ∧
    ((depositPayment (storeWith baseProj) 0 9).2.getProject 0).map Project.paymentStatus
      = some (some "held") :=
  ⟨by decide, (C1_amended (storeWith baseProj) 0 baseProj 9 (by decide)).2.2.2.1⟩

/-- Create input that passes `insertProjectSchema` (all its fields are plain
optional text there) yet supplies its own `paymentStatus`. -/
def overrideInsert : InsertProject := {
  title := "T"
  description := "D"
  amount := "5.00"
  buyerEmail := "b@x.com"
  createdBy := "buyer"
  paymentStatus := some "held" }

/-- C5 counterexample: a valid create input carrying `paymentStatus = "held"`
yields a project whose `paymentStatus` is `"held"`, not `"pending"` — the
schema keeps the workflow fields as optional inputs and `createProject` only
defaults the absent ones. -/
theorem C5_counterexample :
    (emptyStore.createProject overrideInsert 5).1.paymentStatus = some "held" ∧
    (emptyStore.createProject overrideInsert 5).1.paymentStatus ≠ some "pending" := by
  constructor <;> decide

/-- C5 amended: `createProject` assigns a fresh id absent from the store,
sets `createdAt = updatedAt = now`, leaves all file metadata absent, and
gives `status`/`paymentStatus`/`buyerApproved`/`sellerApproved`/`currency`
the supplied values when present, falling back to the documented defaults
only when the input omits them. -/
theorem C5_amended (s : MemStorage) (ip : InsertProject) (now : Nat) (hwf : WFStore s) :
    mapGet s.projects (s.createProject ip now).1.id = none ∧
    mapGet (s.createProject ip now).2.projects (s.createProject ip now).1.id
      = some (s.createProject ip now).1 ∧
    (s.createProject ip now).1.createdAt = now ∧
    (s.createProject ip now).1.updatedAt = now ∧
    (s.createProject ip now).1.fileName = none ∧
    (s.createProject ip now).1.fileSize = none ∧
    (s.createProject ip now).1.fileType = none ∧
    (s.createProject ip now).1.filePath = none ∧
    (s.createProject ip now).1.uploadedAt = none ∧
    (s.createProject ip now).1.status = ip.status.getD "created" ∧
    (s.createProject ip now).1.paymentStatus = some (ip.paymentStatus.getD "pending") ∧
    (s.createProject ip now).1.buyerApproved = some (ip.buyerApproved.getD "false") ∧
    (s.createProject ip now).1.sellerApproved = some (ip.sellerApproved.getD "false") ∧
    (s.createProject ip now).1.currency = some (ip.currency.getD "USD") := by
  refine ⟨?_, ?_, rfl, rfl, rfl, rfl, rfl, rfl, rfl, rfl, rfl, rfl, rfl, rfl⟩
  · exact mapGet_eq_none_of_keysBelow s.projects s.nextId hwf.1
  · simp [MemStorage.createProject, mapGet_mapSet_self]

/-- Witness for C5 amended: the override input keeps its own payment status
on the empty, well-formed store. -/
theorem C5_amended_witness :
    WFStore emptyStore ∧
    (emptyStore.createProject overrideInsert 5).1.paymentStatus
      = some (overrideInsert.paymentStatus.getD "pending") :=
  ⟨by decide, (C5_amended emptyStore overrideInsert 5 (by decide)).2.2.2.2.2.2.2.2.2.2.1⟩

/-- C3: with a file present, the download gate is exactly
`buyerApproved = "true" ∧ sellerApproved = "true"`: a download request under
a false gate is answered `forbidden` (never `notFound`), a download under a
true gate succeeds, and preview access works for any non-download query
regardless of the gate, reporting the gate's value as `downloadAllowed`. -/
theorem C3_downloadGate (s : MemStorage) (id : Nat) (p : Project) (fp : String)
    (onDisk : String → Bool)
    (hp : mapGet s.projects id = some p) (hfp : p.filePath = some fp) :
    (canDownload p = true ↔
      (p.buyerApproved = some "true" ∧ p.sellerApproved = some "true")) ∧
    (canDownload p = false → getFile s id (some "true") onDisk = .forbidden) ∧
    (canDownload p = true → onDisk fp = true →
      getFile s id (some "true") onDisk = .download fp (p.fileName.getD "model")) ∧
    (∀ q : Option String, q ≠ some "true" → onDisk fp = true →
      getFile s id q onDisk
        = .preview p.fileName p.fileSize p.fileType p.uploadedAt (canDownload p)) := by
  refine ⟨by simp [canDownload], ?_, ?_, ?_⟩
  · intro h
    rw [canDownload] at h
    simp only [decide_eq_false_iff_not, not_and_or] at h
    simp [getFile, hp, hfp, h]
  · intro h hdisk
    rw [canDownload] at h
    simp only [decide_eq_true_eq] at h
    simp [getFile, hp, hfp, h.1, h.2, hdisk]
  · intro q hq hdisk
    simp [getFile, hp, hfp, hq, hdisk, canDownload]

/-- Project fixture with both parties approved (download authorized). -/
def bothApprovedProj : Project :=
  { baseProj with sellerApproved := some "true" }

/-- Witness for C3: with both approvals in place the download request is
served. -/
theorem C3_downloadGate_witness :
    mapGet (storeWith bothApprovedProj).projects 0 = some bothApprovedProj ∧
    bothApprovedProj.filePath = some "/up/part.stl" ∧
    getFile (storeWith bothApprovedProj) 0 (some "true") (fun _ => true)
      = .download "/up/part.stl" "part.stl" :=
  ⟨by decide, by decide,
    (C3_downloadGate (storeWith bothApprovedProj) 0 bothApprovedProj "/up/part.stl"
      (fun _ => true) (by decide) (by decide)).2.2.1 (by decide) rfl⟩

/-- C6: an upload whose extension is outside the allow-list or whose size
exceeds 50 MiB is rejected as a validation error with the store — project
records and activity log alike — fully unchanged. -/
theorem C6_upload_rejected (s : MemStorage) (id : Nat) (f : UploadedFile) (now : Nat)
    (h : fileFilterAccepts f = false ∨ sizeLimit < f.size) :
    (uploadFile s id (some f) now).1 = .validationError ∧
    (uploadFile s id (some f) now).2 = s := by
  rcases h with h | h
  · constructor <;> simp [uploadFile, h]
  · by_cases hf : fileFilterAccepts f
    · constructor <;> simp [uploadFile, hf, h]
    · constructor <;> simp [uploadFile, hf]

/-- Upload fixture with a disallowed extension. -/
def exeFile : UploadedFile := {
  originalname := "model.exe"
  size := 10
  mimetype := "application/octet-stream"
  path := "/up/model.exe" }

/-- Witness for C6 at a concrete disallowed extension. -/
theorem C6_upload_rejected_witness :
    (fileFilterAccepts exeFile = false ∨ sizeLimit < exeFile.size) ∧
    (uploadFile (storeWith baseProj) 0 (some exeFile) 7).2 = storeWith baseProj :=
  ⟨Or.inl (by decide),
    (C6_upload_rejected (storeWith baseProj) 0 exeFile 7 (Or.inl (by decide))).2⟩

/-- C7: on an unknown project id, deposit, buyer action, seller approval,
update and upload all answer `notFound` (upload: once the file itself passes
the filter, and with the store unchanged even when it does not) and no
project or activity is created or modified. -/
theorem C7_unknownId (s : MemStorage) (id : Nat) (now : Nat)
    (h : mapGet s.projects id = none) :
    depositPayment s id now = (.notFound, s) ∧
    (∀ a, buyerAction s id a now = (.notFound, s)) ∧
    sellerApprove s id now = (.notFound, s) ∧
    (∀ u, updateProjectRoute s id u now = (.notFound, s)) ∧
    (∀ f, fileFilterAccepts f = true → f.size ≤ sizeLimit →
      uploadFile s id (some f) now = (.notFound, s)) ∧
    (∀ f, (uploadFile s id (some f) now).2 = s) := by
  refine ⟨?_, ?_, ?_, ?_, ?_, ?_⟩
  · simp [depositPayment, h]
  · intro a
    simp [buyerAction, h]
  · simp [sellerApprove, h]
  · intro u
    simp [updateProjectRoute, MemStorage.updateProject, h]
  · intro f hf hsize
    simp [uploadFile, hf, Nat.not_lt.mpr hsize, h]
  · intro f
    by_cases hf : fileFilterAccepts f
    · by_cases hsize : sizeLimit < f.size
      · simp [uploadFile, hf, hsize]
      · simp [uploadFile, hf, hsize, h]
    · simp [uploadFile, hf]

/-- Witness for C7: id 5 is absent from the singleton store. -/
theorem C7_unknownId_witness :
    mapGet (storeWith baseProj).projects 5 = none ∧
    depositPayment (storeWith baseProj) 5 9 = (.notFound, storeWith baseProj) :=
  ⟨by decide, (C7_unknownId (storeWith baseProj) 5 9 (by decide)).1⟩

/-- Identity, creation time and update-time monotonicity for whatever record
sits at `id` after an operation. -/
def timestampsOK (p : Project) (s' : MemStorage) (id : Nat) : Prop :=
  ∀ q : Project, mapGet s'.projects id = some q →
    q.id = p.id ∧ q.createdAt = p.createdAt ∧
    p.updatedAt ≤ q.updatedAt ∧ q.createdAt ≤ q.updatedAt

/-- C8: creation sets `updatedAt = createdAt`; under a non-decreasing clock
every mutating operation keeps `id` and `createdAt`, never lowers
`updatedAt`, and so preserves `updatedAt ≥ createdAt`. -/
theorem C8_timestamps (s : MemStorage) (id : Nat) (p : Project) (now : Nat)
    (hp : mapGet s.projects id = some p) (hclock : p.updatedAt ≤ now)
    (hinv : p.createdAt ≤ p.updatedAt) :
    (∀ ip : InsertProject,
      (s.createProject ip now).1.updatedAt = (s.createProject ip now).1.createdAt) ∧
    timestampsOK p (depositPayment s id now).2 id ∧
    (∀ a, timestampsOK p (buyerAction s id a now).2 id) ∧
    timestampsOK p (sellerApprove s id now).2 id ∧
    (∀ u, timestampsOK p (updateProjectRoute s id u now).2 id) ∧
    (∀ file, timestampsOK p (uploadFile s id file now).2 id) := by
  have hcn : p.createdAt ≤ now := le_trans hinv hclock
  refine ⟨fun ip => rfl, ?_, ?_, ?_, ?_, ?_⟩
  · intro q hq
    simp [depositPayment, MemStorage.updateProject, MemStorage.createActivity, hp,
      mapGet_mapSet_self] at hq
    subst hq
    exact ⟨rfl, rfl, hclock, hcn⟩
  · intro a q hq
    simp [buyerAction, MemStorage.updateProject, MemStorage.createActivity, hp,
      mapGet_mapSet_self] at hq
    subst hq
    exact ⟨rfl, rfl, hclock, hcn⟩
  · intro q hq
    simp [sellerApprove, MemStorage.updateProject, MemStorage.createActivity, hp,
      mapGet_mapSet_self] at hq
    subst hq
    exact ⟨rfl, rfl, hclock, hcn⟩
  · intro u q hq
    simp [updateProjectRoute, MemStorage.updateProject, hp, mapGet_mapSet_self] at hq
    subst hq
    exact ⟨rfl, rfl, hclock, hcn⟩
  · intro file q hq
    match file with
    | none =>
      simp [uploadFile, hp] at hq
      subst hq
      exact ⟨rfl, rfl, le_refl _, hinv⟩
    | some f =>
      by_cases h1 : fileFilterAccepts f
      · by_cases h2 : sizeLimit < f.size
        · simp [uploadFile, h1, h2, hp] at hq
          subst hq
          exact ⟨rfl, rfl, le_refl _, hinv⟩
        · simp [uploadFile, h1, h2, MemStorage.updateProject, MemStorage.createActivity,
            hp, mapGet_mapSet_self] at hq
          subst hq
          exact ⟨rfl, rfl, hclock, hcn⟩
      · simp [uploadFile, h1, hp] at hq
        subst hq
        exact ⟨rfl, rfl, le_refl _, hinv⟩

/-- Witness for C8 at the concrete fixture under a later clock. -/
theorem C8_timestamps_witness :
    mapGet (storeWith baseProj).projects 0 = some baseProj ∧
    baseProj.updatedAt ≤ 9 ∧ baseProj.createdAt ≤ baseProj.updatedAt ∧
    (emptyStore.createProject overrideInsert 9).1.updatedAt
      = (emptyStore.createProject overrideInsert 9).1.createdAt :=
  ⟨by decide, by decide, by decide,
    (C8_timestamps (storeWith baseProj) 0 baseProj 9 (by decide) (by decide) (by decide)).1
      overrideInsert⟩

/-- The comparator `actDescBefore` is transitive. -/
theorem actDescBefore_trans (a b c : Activity)
    (h1 : actDescBefore a b = true) (h2 : actDescBefore b c = true) :
    actDescBefore a c = true := by
  simp [actDescBefore] at h1 h2 ⊢
  exact le_trans h2 h1

/-- The comparator `actDescBefore` is total. -/
theorem actDescBefore_total (a b : Activity) :
    (actDescBefore a b || actDescBefore b a) = true := by
  simp [actDescBefore]
  exact Nat.le_total b.createdAt a.createdAt

/-- C9: per-project listing returns exactly that project's activities in
non-increasing `createdAt` order; the recent listing is globally sorted the
same way, holds at most `limit` entries drawn from the activity log, and the
route's limit parameter falls back to 10 when missing or zero. -/
theorem C9_activityQueries :
    (∀ (s : MemStorage) (pid : Nat),
      (s.getActivitiesByProject pid).Perm
        ((activityValues s).filter (fun a => a.projectId == pid)) ∧
      (s.getActivitiesByProject pid).Sorted (fun a b => b.createdAt ≤ a.createdAt)) ∧
    (∀ (s : MemStorage) (limit : Nat),
      (s.getRecentActivities limit).length ≤ limit ∧
      (s.getRecentActivities limit).Sorted (fun a b => b.createdAt ≤ a.createdAt) ∧
      (∀ a ∈ s.getRecentActivities limit, a ∈ activityValues s)) ∧
    (∀ (s : MemStorage) (n : Nat),
      recentActivitiesRoute s none = s.getRecentActivities 10 ∧
      recentActivitiesRoute s (some n)
        = s.getRecentActivities (if n = 0 then 10 else n)) := by
  refine ⟨?_, ?_, ?_⟩
  · intro s pid
    constructor
    · exact List.mergeSort_perm _ _
    · exact (List.sorted_mergeSort actDescBefore_trans actDescBefore_total _).imp
        (fun h => of_decide_eq_true h)
  · intro s limit
    refine ⟨List.length_take_le _ _, ?_, ?_⟩
    · exact (List.Pairwise.sublist (List.take_sublist _ _)
        (List.sorted_mergeSort actDescBefore_trans actDescBefore_total _)).imp
        (fun h => of_decide_eq_true h)
    · intro a ha
      have h1 : a ∈ (activityValues s).mergeSort actDescBefore :=
        (List.take_sublist _ _).subset ha
      exact (List.mergeSort_perm (activityValues s) actDescBefore).mem_iff.mp h1
  · intro s n
    exact ⟨rfl, rfl⟩

/-- Witness for C9's route-default clause at a concrete store. -/
theorem C9_activityQueries_witness :
    recentActivitiesRoute (storeWith baseProj) none
      = (storeWith baseProj).getRecentActivities 10 :=
  (C9_activityQueries.2.2 (storeWith baseProj) 0).1

/-- C10: on an existing project, any buyer action other than `"approve"`
(including a missing action) behaves exactly as `request_revision`: it sets
`buyerApproved` and `status` to `"revision_requested"` and appends a
`"review"` activity. -/
theorem C10_buyerAction_default (s : MemStorage) (id : Nat) (p : Project)
    (action : Option String) (now : Nat)
    (hp : mapGet s.projects id = some p) (hwf : WFStore s)
    (ha : action ≠ some "approve") :
    buyerAction s id action now = buyerAction s id (some "request_revision") now ∧
    ((buyerAction s id action now).2.getProject id).map Project.buyerApproved
      = some (some "revision_requested") ∧
    ((buyerAction s id action now).2.getProject id).map Project.status
      = some "revision_requested" ∧
    (buyerAction s id action now).2.activities = s.activities ++ [(s.nextId,
      { id := s.nextId
        projectId := id
        description := "Buyer requested revisions"
        type := "review"
        createdAt := now })] := by
  have hnone := mapGet_eq_none_of_keysBelow s.activities s.nextId hwf.2
  simp [buyerAction, MemStorage.getProject, MemStorage.updateProject,
    MemStorage.createActivity, hp, ha, mapGet_mapSet_self,
    mapSet_eq_append s.activities s.nextId _ hnone]

/-- Witness for C10 at a concrete unexpected action value. -/
theorem C10_buyerAction_default_witness :
    mapGet (storeWith baseProj).projects 0 = some baseProj ∧
    WFStore (storeWith baseProj) ∧
    (some "reject" : Option String) ≠ some "approve" ∧
    ((buyerAction (storeWith baseProj) 0 (some "reject") 7).2.getProject 0).map
        Project.buyerApproved = some (some "revision_requested") :=
  ⟨by decide, by decide, by decide,
    (C10_buyerAction_default (storeWith baseProj) 0 baseProj (some "reject") 7
      (by decide) (by decide) (by decide)).2.1⟩

end Bartrix
